import Mathlib

/-!
Verification of the clickhouse-lsp language server's token-extraction
pipeline and formatter-error normalizer, as a shallow embedding of the
TypeScript source (`src/server.ts` and the formatting-capable server).

Machine integers are modelled as `Nat`/`Int` (JavaScript numbers stay far
below 2^53 here, so no overflow modelling is needed); nullable values as
`Option`; a thrown JavaScript exception as `Except.error ()`.
-/

namespace ClickhouseLsp

/-- Tree-sitter position: 0-indexed (row, column), as exposed by
`node.startPosition` / `node.endPosition`. -/
structure Point where
  row : Nat
  column : Nat
deriving DecidableEq, Repr

/-- One query capture: a capture name plus the node's start/end positions.
Read-only external input produced by `query.matches(tree.rootNode)`. -/
structure Capture where
  name : String
  startPosition : Point
  endPosition : Point
deriving DecidableEq, Repr

/-- A JavaScript value occupying a number-typed slot: an actual number,
or the non-number `Object.prototype` member (a function, or the
prototype object itself for `__proto__`) that a prototype-named capture
leaks into the pipeline — the source never converts or checks it, so it
flows through the `Token` and the builder's data array unchanged. -/
inductive JsVal where
  | num (i : Int)
  | proto
deriving DecidableEq, Repr

/-- Own property names of `Object.prototype` (Node/V8): a string-keyed
lookup on a plain object literal resolves these through the prototype
chain to a defined, non-number value (`__proto__` goes through the
inherited accessor and yields `Object.prototype` itself). -/
def objectPrototypeMembers : List String :=
  ["constructor", "hasOwnProperty", "isPrototypeOf", "propertyIsEnumerable",
   "toLocaleString", "toString", "valueOf", "__proto__",
   "__defineGetter__", "__defineSetter__", "__lookupGetter__", "__lookupSetter__"]

/-- The `Token` interface of the source: line, char, length, tokenType.
`length` is an `Int` because the source computes it by subtraction with no
clamping, so it can be negative; `tokenType` is a `JsVal` because the
looked-up value is stored without any check beyond `=== undefined`, so a
prototype-named capture stores the inherited non-number value here. -/
structure Token where
  line : Nat
  char : Nat
  length : Int
  tokenType : JsVal
deriving DecidableEq, Repr

/-- Decidable equality for `Except` results, used to evaluate the model
on concrete inputs. -/
instance {ε α : Type} [DecidableEq ε] [DecidableEq α] : DecidableEq (Except ε α) :=
  fun x y =>
    match x, y with
    | .error a, .error b =>
      if h : a = b then .isTrue (by rw [h])
      else .isFalse (fun hc => h (Except.error.injEq a b ▸ hc))
    | .error a, .ok b => .isFalse (fun hc => Except.noConfusion hc)
    | .ok a, .error b => .isFalse (fun hc => Except.noConfusion hc)
    | .ok a, .ok b =>
      if h : a = b then .isTrue (by rw [h])
      else .isFalse (fun hc => h (Except.ok.injEq a b ▸ hc))

/-- Own entries of the `captureToTokenType` record literal of the
formatting-capable server (part_000 lines 103-115), exactly as written:
capture name to semantic token type index. -/
def captureTableOwnEntry (name : String) : Option Nat :=
  if name = "keyword" then some 0
  else if name = "type.builtin" then some 1
  else if name = "type" then some 1
  else if name = "string" then some 2
  else if name = "number" then some 3
  else if name = "comment" then some 4
  else if name = "variable" then some 5
  else if name = "function" then some 6
  else if name = "operator" then some 7
  else if name = "punctuation.bracket" then some 8
  else if name = "punctuation.delimiter" then some 8
  else none

/-- The JavaScript lookup `captureToTokenType[captureName]` as the
runtime evaluates it: an own entry of the record literal if present;
otherwise, because an object literal inherits `Object.prototype`, a
prototype member name (for example `constructor` or `toString`) yields
the inherited defined non-number value; only a name absent from both
yields `undefined` (`none`). -/
def captureToTokenType (name : String) : Option JsVal :=
  match captureTableOwnEntry name with
  | some n => some (.num n)
  | none => if name ∈ objectPrototypeMembers then some .proto else none

/-- JavaScript `text.split('\n')`: split a character list on newline
characters; the result is always nonempty and keeps empty segments. -/
def splitLines : List Char → List (List Char)
  | [] => [[]]
  | c :: rest =>
    if c = '\n' then [] :: splitLines rest
    else
      match splitLines rest with
      | [] => [[c]]
      | l :: ls => (c :: l) :: ls

/-- Per-capture body of the extraction loop (part_000 lines 221-251).
The capture name is looked up first; a name that resolves to `undefined`
yields no token and no error (`ok none`), while a prototype-member name
resolves to a defined non-number value and passes the
`=== undefined` guard, so a token is pushed with that value as its type.
A single-row node yields length `endColumn - startColumn` (no clamping).
A multi-row node reads `text.split('\n')[startPoint.row].length`; if the
row index is out of range JavaScript throws (`undefined.length`),
modelled as `error ()`. -/
def processCapture (textLines : List (List Char)) (c : Capture) :
    Except Unit (Option Token) :=
  match captureToTokenType c.name with
  | none => .ok none
  | some tokenTypeIndex =>
    if c.startPosition.row = c.endPosition.row then
      .ok (some { line := c.startPosition.row, char := c.startPosition.column,
                  length := (c.endPosition.column : Int) - (c.startPosition.column : Int),
                  tokenType := tokenTypeIndex })
    else
      match textLines[c.startPosition.row]? with
      | none => .error ()
      | some firstLine =>
        .ok (some { line := c.startPosition.row, char := c.startPosition.column,
                    length := (firstLine.length : Int) - (c.startPosition.column : Int),
                    tokenType := tokenTypeIndex })

/-- The extraction loop over all captures (the nested `for match / for
capture` loops, flattened to the traversal-order capture list), collecting
pushed tokens in order; an exception in any iteration aborts the loop. -/
def extractTokens (textLines : List (List Char)) : List Capture → Except Unit (List Token)
  | [] => .ok []
  | c :: cs =>
    match processCapture textLines c with
    | .error e => .error e
    | .ok t? =>
      match extractTokens textLines cs with
      | .error e => .error e
      | .ok rest =>
        match t? with
        | none => .ok rest
        | some t => .ok (t :: rest)

/-- Boolean rendering of the sort comparator of part_000 lines 255-258:
`a` precedes-or-ties `b` iff `a.line < b.line`, or lines are equal and
`a.char ≤ b.char`. -/
def tokLE (a b : Token) : Bool :=
  if a.line ≠ b.line then a.line < b.line else a.char ≤ b.char

/-- Propositional form of the comparator's order. -/
def tokLEP (a b : Token) : Prop := tokLE a b = true

instance : DecidableRel tokLEP := fun a b => by
  unfold tokLEP
  infer_instance

instance : IsTotal Token tokLEP := ⟨fun a b => by
  unfold tokLEP tokLE
  by_cases h : a.line = b.line
  · simp [h]
    omega
  · have h' : ¬b.line = a.line := fun hh => h hh.symm
    simp [h, h']⟩

instance : IsTrans Token tokLEP := ⟨fun a b c hab hbc => by
  unfold tokLEP tokLE at *
  split at hab <;> split at hbc <;> split <;>
    simp only [ne_eq, not_not, decide_eq_true_eq] at * <;> omega⟩

/-- The `tokens.sort((a, b) => ...)` call: a stable sort under the
comparator's order (JavaScript `Array.prototype.sort` is stable;
insertion sort is one such stable sort). -/
def sortTokens (toks : List Token) : List Token :=
  toks.insertionSort tokLEP

/-- Modelled from the spec: state of the external `SemanticTokensBuilder`
(vscode-languageserver, not part of this repository), whose delta
encoding is specified in spec section 4.4: `_prevLine`/`_prevChar` start
at 0 and `_data` empty. -/
structure BuilderState where
  prevLine : Nat
  prevChar : Nat
  data : List JsVal
deriving Repr

/-- Modelled from the spec: `SemanticTokensBuilder.push`.  The first token
is written with absolute line/char; later tokens with
`line - prevLine`, and char relative to `prevChar` exactly when the line
delta is 0 (spec section 4.4).  The token type slot is stored without
any conversion, so a non-number token type reaches the array as-is. -/
def builderPush (s : BuilderState) (line char : Nat) (length : Int)
    (tokenType : JsVal) (tokenModifiers : Int) : BuilderState :=
  let pushLine : Int := if s.data = [] then (line : Int) else (line : Int) - (s.prevLine : Int)
  let pushChar : Int :=
    if s.data ≠ [] ∧ line = s.prevLine then (char : Int) - (s.prevChar : Int) else (char : Int)
  { prevLine := line, prevChar := char,
    data := s.data ++ [.num pushLine, .num pushChar, .num length, tokenType,
      .num tokenModifiers] }

/-- The encoding loop of part_000 lines 261-266: push every token with
modifier bitmask 0 and return the built `data` array. -/
def encodeTokens (toks : List Token) : List JsVal :=
  (toks.foldl (fun s t => builderPush s t.line t.char t.length t.tokenType 0)
    { prevLine := 0, prevChar := 0, data := [] }).data

/-- External state consulted by `getSemanticTokens`: whether the parser
and language are initialized, whether `parser.parse` returned a tree,
the result of reading the highlights query file, and the compiled query
abstracted as the capture list its matches yield on this document's
tree (in traversal order). -/
structure HighlightEnv where
  parserReady : Bool
  parseTree : Option Unit
  queryFile : Except Unit (List Char)
  compiledQuery : Except Unit (List Capture)

/-- The body of `getSemanticTokens` (part_000 lines 184-267): early empty
returns for uninitialized parser, null tree, unreadable query file or
non-compiling query; otherwise extract, sort and delta-encode.  An
exception thrown inside the extraction loop is not caught and propagates
(`error ()`). -/
def getSemanticTokens (env : HighlightEnv) (text : List Char) :
    Except Unit (List JsVal) :=
  if !env.parserReady then .ok []
  else match env.parseTree with
  | none => .ok []
  | some _ =>
    match env.queryFile with
    | .error _ => .ok []
    | .ok _ =>
      match env.compiledQuery with
      | .error _ => .ok []
      | .ok captures =>
        match extractTokens (splitLines text) captures with
        | .error e => .error e
        | .ok toks => .ok (encodeTokens (sortTokens toks))

/-! The `getSemanticTokens` copy of `src/src/server.ts` (lines 115-198),
with its own copy of the capture table (lines 43-55).  The two servers
share the external `SemanticTokensBuilder` and `Array.prototype.sort`,
so those models are reused. -/

/-- Own entries of the `captureToTokenType` record literal of
`src/src/server.ts` lines 43-55, exactly as written. -/
def captureTableOwnEntryServer (name : String) : Option Nat :=
  if name = "keyword" then some 0
  else if name = "type.builtin" then some 1
  else if name = "type" then some 1
  else if name = "string" then some 2
  else if name = "number" then some 3
  else if name = "comment" then some 4
  else if name = "variable" then some 5
  else if name = "function" then some 6
  else if name = "operator" then some 7
  else if name = "punctuation.bracket" then some 8
  else if name = "punctuation.delimiter" then some 8
  else none

/-- The JavaScript lookup on the `src/src/server.ts` record: own entry
first, otherwise the inherited `Object.prototype` member, otherwise
`undefined` (`none`). -/
def captureToTokenTypeServer (name : String) : Option JsVal :=
  match captureTableOwnEntryServer name with
  | some n => some (.num n)
  | none => if name ∈ objectPrototypeMembers then some .proto else none

/-- Per-capture body of the extraction loop in `src/src/server.ts`
lines 152-182. -/
def processCaptureServer (textLines : List (List Char)) (c : Capture) :
    Except Unit (Option Token) :=
  match captureToTokenTypeServer c.name with
  | none => .ok none
  | some tokenTypeIndex =>
    if c.startPosition.row = c.endPosition.row then
      .ok (some { line := c.startPosition.row, char := c.startPosition.column,
                  length := (c.endPosition.column : Int) - (c.startPosition.column : Int),
                  tokenType := tokenTypeIndex })
    else
      match textLines[c.startPosition.row]? with
      | none => .error ()
      | some firstLine =>
        .ok (some { line := c.startPosition.row, char := c.startPosition.column,
                    length := (firstLine.length : Int) - (c.startPosition.column : Int),
                    tokenType := tokenTypeIndex })

/-- Extraction loop of `src/src/server.ts` lines 151-183. -/
def extractTokensServer (textLines : List (List Char)) : List Capture → Except Unit (List Token)
  | [] => .ok []
  | c :: cs =>
    match processCaptureServer textLines c with
    | .error e => .error e
    | .ok t? =>
      match extractTokensServer textLines cs with
      | .error e => .error e
      | .ok rest =>
        match t? with
        | none => .ok rest
        | some t => .ok (t :: rest)

/-- The body of `getSemanticTokens` in `src/src/server.ts` lines 115-198. -/
def getSemanticTokensServer (env : HighlightEnv) (text : List Char) :
    Except Unit (List JsVal) :=
  if !env.parserReady then .ok []
  else match env.parseTree with
  | none => .ok []
  | some _ =>
    match env.queryFile with
    | .error _ => .ok []
    | .ok _ =>
      match env.compiledQuery with
      | .error _ => .ok []
      | .ok captures =>
        match extractTokensServer (splitLines text) captures with
        | .error e => .error e
        | .ok toks => .ok (encodeTokens (sortTokens toks))

/-! Formatter error normalizer: `parseClickHouseError` (part_000 lines
280-318).  Each JavaScript regex of the source is modelled as an anchored
matcher tried at every suffix, leftmost match first, which is exactly the
backtracking engine's search order; for these patterns greedy `\d+` and
`[^)]+` runs are maximal runs (the following literal cannot extend a
shorter run), so no other backtracking is observable. -/

/-- Maximal run of characters satisfying `p` and the remaining suffix. -/
def spanWhile (p : Char → Bool) : List Char → List Char × List Char
  | [] => ([], [])
  | c :: rest =>
    if p c then
      let (a, r) := spanWhile p rest
      (c :: a, r)
    else ([], c :: rest)

/-- Match a literal character sequence, returning the remaining suffix. -/
def matchLit : List Char → List Char → Option (List Char)
  | [], s => some s
  | _ :: _, [] => none
  | p :: ps, c :: cs => if c = p then matchLit ps cs else none

/-- Leftmost-match search: try an anchored matcher at every suffix, in
order. -/
def scanFirst {α : Type} (f : List Char → Option α) : List Char → Option α
  | [] => f []
  | s@(_ :: rest) =>
    match f s with
    | some r => some r
    | none => scanFirst f rest

/-- Anchored matcher for the regex of part_000 line 286, capturing the two
digit groups L and C of a locator written open-paren `line L, col C`
close-paren. -/
def tryLineColAt (s : List Char) : Option (List Char × List Char) :=
  match matchLit "(line ".toList s with
  | none => none
  | some s1 =>
    let (d1, s2) := spanWhile Char.isDigit s1
    if d1 = [] then none
    else match matchLit ", col ".toList s2 with
    | none => none
    | some s3 =>
      let (d2, s4) := spanWhile Char.isDigit s3
      if d2 = [] then none
      else match s4 with
      | ')' :: _ => some (d1, d2)
      | _ => none

/-- Anchored matcher for the regex of part_000 line 287: literal
`failed at position `, digits, a space and an opening parenthesis, then
the captured maximal nonempty run of non-closing-parenthesis characters,
then the closing parenthesis. -/
def tryTokenAt (s : List Char) : Option (List Char) :=
  match matchLit "failed at position ".toList s with
  | none => none
  | some s1 =>
    let (d, s2) := spanWhile Char.isDigit s1
    if d = [] then none
    else match matchLit " (".toList s2 with
    | none => none
    | some s3 =>
      let (t, s4) := spanWhile (fun c => c ≠ ')') s3
      if t = [] then none
      else match s4 with
      | ')' :: _ => some t
      | _ => none

/-- Anchored matcher for the regex of part_000 line 288: literal
`failed at position ` followed by the captured nonempty digit run. -/
def tryPositionAt (s : List Char) : Option (List Char) :=
  match matchLit "failed at position ".toList s with
  | none => none
  | some s1 =>
    let (d, _) := spanWhile Char.isDigit s1
    if d = [] then none else some d

/-- Lazy-dot capture loop for the regex of part_000 line 310: `acc` holds
the (reversed, nonempty) characters captured so far; stop as soon as the
next character is a dot (the lookahead) or the input ends (end-of-string
lookahead); fail on a line terminator, which the dot atom cannot match. -/
def lazyCaptureLoop : List Char → List Char → Option (List Char)
  | acc, [] => some acc.reverse
  | acc, c :: rest =>
    if c = '.' then some acc.reverse
    else if c = '\n' ∨ c = '\r' then none
    else lazyCaptureLoop (c :: acc) rest

/-- Lazy capture of at least one non-line-terminator character, up to the
first position followed by a dot or the end of input (ASCII line
terminators modelled; the engine also excludes U+2028/U+2029). -/
def lazyCapture : List Char → Option (List Char)
  | [] => none
  | c :: rest =>
    if c = '\n' ∨ c = '\r' then none else lazyCaptureLoop [c] rest

/-- Anchored matcher for the regex of part_000 line 310: literal
`DB::Exception: ` followed by the lazy capture. -/
def tryExcAt (s : List Char) : Option (List Char) :=
  match matchLit "DB::Exception: ".toList s with
  | none => none
  | some s1 => lazyCapture s1

/-- ASCII whitespace recognized by the JavaScript `\s` class (the class
also contains some Unicode spaces, not modelled). -/
def isJsSpace (c : Char) : Bool :=
  c == ' ' || c == '\t' || c == '\n' || c == '\r' || c == '\x0b' || c == '\x0c'

/-- The anchored replace of part_000 line 316: strip a leading
`Code: `-digits-dot-whitespace run if the text starts with one. -/
def stripLeadingCode (s : List Char) : List Char :=
  match matchLit "Code: ".toList s with
  | none => s
  | some s1 =>
    let (d, s2) := spanWhile Char.isDigit s1
    if d = [] then s
    else match s2 with
    | '.' :: s3 => (spanWhile isJsSpace s3).2
    | _ => s

/-- JavaScript `stderr.split('\n')[0]`: the first line of the text. -/
def firstLineOf (s : List Char) : List Char :=
  (spanWhile (fun c => c ≠ '\n') s).1

/-- The apostrophe character used in the source's message templates. -/
def squote : Char := Char.ofNat 39

/-- The `parseClickHouseError` cascade (part_000 lines 280-318): rule 1
needs both the locator and the token marker; rule 2 only the token
marker; rule 3 a bare position; rule 4 the exception marker; rule 5
always succeeds, inserting `Unknown error` when the stripped first line
is empty. -/
def parseClickHouseError (stderr : List Char) : List Char :=
  let lineColMatch := scanFirst tryLineColAt stderr
  let tokenMatch := scanFirst tryTokenAt stderr
  let positionMatch := scanFirst tryPositionAt stderr
  match lineColMatch, tokenMatch with
  | some (line, col), some token =>
    "Syntax error at line ".toList ++ line ++ ", column ".toList ++ col
      ++ ": unexpected ".toList ++ [squote] ++ token ++ [squote]
  | _, _ =>
    match tokenMatch with
    | some token =>
      "Syntax error: unexpected ".toList ++ [squote] ++ token ++ [squote]
    | none =>
      match positionMatch with
      | some pos => "Syntax error at position ".toList ++ pos
      | none =>
        match scanFirst tryExcAt stderr with
        | some msg => msg
        | none =>
          let firstLine := stripLeadingCode (firstLineOf stderr)
          "Formatting failed: ".toList
            ++ (if firstLine = [] then "Unknown error".toList else firstLine)

/-! Document formatting: `formatDocument` (part_000 lines 321-390).  The
external process interaction is summarized by its observable outcome: a
spawn `error` event, or a `close` event with an exit code (`none` models
the `null` code of a killed process, which is what the 5-second spawn
timeout produces) and the collected stdout/stderr.  The promise only ever
resolves — modelled by `formatDocument` being a total function. -/

/-- Observable outcome of the spawned `clickhouse-format` process. -/
inductive ProcOutcome where
  | errored (code : String)
  | closed (exitCode : Option Int) (stdout stderr : List Char)
deriving DecidableEq, Repr

/-- LSP position (line, character). -/
structure LspPosition where
  line : Nat
  character : Nat
deriving DecidableEq, Repr

/-- LSP text edit: a replaced range (start and end positions; the second
field is called `end` in LSP, a Lean keyword) and the new text. -/
structure LspTextEdit where
  start : LspPosition
  stop : LspPosition
  newText : List Char
deriving DecidableEq, Repr

/-- Resolution of `formatDocument` for a document text and a process
outcome: empty on a spawn error, empty on a non-zero (or null) exit
code, otherwise one full-document replacement whose end position is the
last line and its length (the `?.length || 0` guard yielding 0 for a
missing line). -/
def formatDocument (doc : List Char) (outcome : ProcOutcome) : List LspTextEdit :=
  match outcome with
  | .errored _ => []
  | .closed code stdout _stderr =>
    if code ≠ some 0 then []
    else
      let docLines := splitLines doc
      let lastLine := docLines.length - 1
      let lastChar :=
        match docLines[lastLine]? with
        | none => 0
        | some l => l.length
      [{ start := { line := 0, character := 0 },
         stop := { line := lastLine, character := lastChar },
         newText := stdout }]

/-- Outcome filter used to state the failure claims: `true` exactly when
the process closed with exit code 0. -/
def exitedCleanly : ProcOutcome → Bool
  | .closed (some 0) _ _ => true
  | _ => false

/-! Specification-side definitions.  These two follow the spec's words
(the round-trip law and the delta invariant of spec sections 3 and 4.4),
not the source: they give the claims their statements. -/

/-- Modelled from the spec: sequential decoder of the 5-slots-per-token
wire format.  State is the previous absolute (line, char); each group
`[lineDelta, columnValue, length, tokenType, modifiers]` yields the
absolute line `prev + lineDelta`, and the absolute column is relative to
the previous token exactly when `lineDelta = 0`.  The position, length
and modifier slots must be numbers; the token type slot is reproduced
unchanged, whatever value occupies it. -/
def decodeSeq : List JsVal → Int → Int → List (Int × Int × Int × JsVal × Int)
  | .num dl :: .num cv :: .num len :: tt :: .num m :: rest, prevLine, prevChar =>
    let line := prevLine + dl
    let char := if dl = 0 then prevChar + cv else cv
    (line, char, len, tt, m) :: decodeSeq rest line char
  | _, _, _ => []

/-- Modelled from the spec: the delta invariant over an encoded buffer —
every group's line delta is a nonnegative number, and its column value
is a nonnegative number whenever the line delta is zero.  Buffers whose
length is not a multiple of five, or whose position slots are not
numbers, are rejected. -/
def deltaOk : List JsVal → Bool
  | [] => true
  | .num dl :: .num cv :: _len :: _tt :: _mod :: rest =>
    (0 ≤ dl && (dl ≠ 0 || 0 ≤ cv)) && deltaOk rest
  | _ => false

/-- Absolute 5-tuple of a token as the decoder should reproduce it
(modifier bitmask 0). -/
def tokenTuple (t : Token) : Int × Int × Int × JsVal × Int :=
  ((t.line : Int), (t.char : Int), t.length, t.tokenType, 0)

/-- Recursive characterization of the builder fold: the buffer emitted
after a state whose previous position is (prevLine, prevChar). -/
def encodeAux (prevLine prevChar : Nat) : List Token → List JsVal
  | [] => []
  | t :: ts =>
    .num ((t.line : Int) - (prevLine : Int)) ::
    .num (if t.line = prevLine then (t.char : Int) - (prevChar : Int) else (t.char : Int)) ::
    .num t.length :: t.tokenType :: .num 0 :: encodeAux t.line t.char ts

theorem builderPush_of_ne_nil (s : BuilderState) (hs : s.data ≠ []) (t : Token) :
    builderPush s t.line t.char t.length t.tokenType 0 =
      { prevLine := t.line, prevChar := t.char,
        data := s.data ++ [.num ((t.line : Int) - (s.prevLine : Int)),
          .num (if t.line = s.prevLine then (t.char : Int) - (s.prevChar : Int)
                else (t.char : Int)),
          .num t.length, t.tokenType, .num 0] } := by
  simp [builderPush, hs]

theorem foldl_push_data : ∀ (toks : List Token) (s : BuilderState), s.data ≠ [] →
    (toks.foldl (fun st t => builderPush st t.line t.char t.length t.tokenType 0) s).data
      = s.data ++ encodeAux s.prevLine s.prevChar toks
  | [], _, _ => by simp [encodeAux]
  | t :: ts, s, hs => by
    rw [List.foldl_cons, builderPush_of_ne_nil s hs t,
      foldl_push_data ts _ (by simp)]
    simp [encodeAux]

theorem encodeTokens_eq_aux (toks : List Token) :
    encodeTokens toks = encodeAux 0 0 toks := by
  cases toks with
  | nil => rfl
  | cons t ts =>
    have hstep : builderPush { prevLine := 0, prevChar := 0, data := [] }
        t.line t.char t.length t.tokenType 0 =
        { prevLine := t.line, prevChar := t.char,
          data := [.num (t.line : Int), .num (t.char : Int), .num t.length,
            t.tokenType, .num 0] } := by
      simp [builderPush]
    rw [encodeTokens, List.foldl_cons, hstep, foldl_push_data ts _ (by simp)]
    have hchar : (if t.line = 0 then (t.char : Int) - ((0 : Nat) : Int) else (t.char : Int))
        = (t.char : Int) := by
      split <;> simp
    simp [encodeAux, hchar]

theorem decodeSeq_encodeAux : ∀ (toks : List Token) (pl pc : Nat),
    decodeSeq (encodeAux pl pc toks) (pl : Int) (pc : Int) = toks.map tokenTuple
  | [], _, _ => rfl
  | t :: ts, pl, pc => by
    have ih := decodeSeq_encodeAux ts t.line t.char
    by_cases h : t.line = pl
    · subst h
      simp [encodeAux, decodeSeq, tokenTuple, ih]
    · have hsub : ((t.line : Int) - (pl : Int)) ≠ 0 := by
        simpa [sub_eq_zero, Nat.cast_inj] using h
      simp [encodeAux, decodeSeq, tokenTuple, h, hsub, ih]

theorem tokLE_iff (a b : Token) : tokLE a b = true ↔
    a.line < b.line ∨ (a.line = b.line ∧ a.char ≤ b.char) := by
  by_cases h : a.line = b.line
  · simp [tokLE, h]
  · simp [tokLE, h]

theorem sortTokens_pairwise (toks : List Token) :
    List.Pairwise tokLEP (sortTokens toks) :=
  List.sorted_insertionSort tokLEP toks

theorem deltaOk_encodeAux : ∀ (toks : List Token) (pl pc : Nat),
    (∀ t ∈ toks.head?, pl < t.line ∨ (pl = t.line ∧ pc ≤ t.char)) →
    List.Chain' tokLEP toks →
    deltaOk (encodeAux pl pc toks) = true
  | [], _, _, _, _ => rfl
  | t :: ts, pl, pc, hhead, hchain => by
    have hkey : pl < t.line ∨ (pl = t.line ∧ pc ≤ t.char) := hhead t rfl
    have hrest : deltaOk (encodeAux t.line t.char ts) = true := by
      refine deltaOk_encodeAux ts t.line t.char ?_ (hchain.tail)
      intro u hu
      have := List.chain'_cons'.mp hchain
      have hrel := (tokLE_iff t u).mp (this.1 u hu)
      omega
    by_cases h : t.line = pl
    · have hdl : ((t.line : Int) - (pl : Int)) = 0 := by rw [h]; ring
      have hcol : pc ≤ t.char := by omega
      simp [encodeAux, deltaOk, hdl, hrest]
      omega
    · simp [encodeAux, deltaOk, h, hrest]
      omega

theorem processCapture_ok_none (tl : List (List Char)) (c : Capture)
    (h : processCapture tl c = .ok none) : captureToTokenType c.name = none := by
  cases hl : captureToTokenType c.name with
  | none => rfl
  | some tt =>
    exfalso
    simp only [processCapture, hl] at h
    split at h
    · simp at h
    · split at h <;> simp at h

theorem processCapture_ok_some (tl : List (List Char)) (c : Capture) (t : Token)
    (h : processCapture tl c = .ok (some t)) :
    (captureToTokenType c.name).isSome = true := by
  cases hl : captureToTokenType c.name with
  | some tt => rfl
  | none =>
    exfalso
    simp only [processCapture, hl] at h
    simp at h

theorem extractTokens_count : ∀ (tl : List (List Char)) (captures : List Capture)
    (toks : List Token), extractTokens tl captures = .ok toks →
    toks.length ≤ captures.length ∧
      (toks.length = captures.length ↔
        ∀ c ∈ captures, (captureToTokenType c.name).isSome = true)
  | _, [], toks, h => by
    simp only [extractTokens, Except.ok.injEq] at h
    subst h
    simp
  | tl, c :: cs, toks, h => by
    cases hpc : processCapture tl c with
    | error e =>
      simp only [extractTokens, hpc] at h
      exact absurd h (by simp)
    | ok t? =>
      cases hrec : extractTokens tl cs with
      | error e =>
        simp only [extractTokens, hpc, hrec] at h
        exact absurd h (by simp)
      | ok rest =>
        have ih := extractTokens_count tl cs rest hrec
        cases t? with
        | none =>
          simp only [extractTokens, hpc, hrec, Except.ok.injEq] at h
          subst h
          have hnone := processCapture_ok_none tl c hpc
          refine ⟨by simpa using Nat.le_succ_of_le ih.1, ?_⟩
          constructor
          · intro hlen
            exfalso
            have := ih.1
            simp at hlen
            omega
          · intro hall
            exfalso
            have := hall c (by simp)
            rw [hnone] at this
            simp at this
        | some t =>
          simp only [extractTokens, hpc, hrec, Except.ok.injEq] at h
          subst h
          have hsome := processCapture_ok_some tl c t hpc
          refine ⟨by simpa using Nat.succ_le_succ ih.1, ?_⟩
          simp only [List.length_cons, Nat.succ.injEq, List.mem_cons]
          constructor
          · intro hlen
            intro x hx
            rcases hx with hx | hx
            · subst hx; exact hsome
            · exact (ih.2.mp (by omega)) x hx
          · intro hall
            have : rest.length = cs.length :=
              ih.2.mpr (fun x hx => hall x (Or.inr hx))
            omega

theorem getSemanticTokens_ok (env : HighlightEnv) (text : List Char) (buf : List JsVal)
    (h : getSemanticTokens env text = .ok buf) :
    buf = [] ∨ ∃ toks, buf = encodeTokens (sortTokens toks) := by
  obtain ⟨ready, tree, qf, cq⟩ := env
  cases ready
  · simp [getSemanticTokens] at h
    exact Or.inl h
  · cases tree
    · simp [getSemanticTokens] at h
      exact Or.inl h
    · cases qf
      · simp [getSemanticTokens] at h
        exact Or.inl h
      · cases cq
        · simp [getSemanticTokens] at h
          exact Or.inl h
        · rename_i caps
          cases hex : extractTokens (splitLines text) caps with
          | error e =>
            simp [getSemanticTokens, hex] at h
          | ok toks =>
            simp [getSemanticTokens, hex] at h
            exact Or.inr ⟨toks, h.symm⟩

theorem captureToTokenTypeServer_eq (name : String) :
    captureToTokenTypeServer name = captureToTokenType name := rfl

theorem processCaptureServer_eq (tl : List (List Char)) (c : Capture) :
    processCaptureServer tl c = processCapture tl c := rfl

theorem extractTokensServer_eq : ∀ (tl : List (List Char)) (cs : List Capture),
    extractTokensServer tl cs = extractTokens tl cs
  | _, [] => rfl
  | tl, c :: cs => by
    have ih := extractTokensServer_eq tl cs
    simp only [extractTokensServer, extractTokens, processCaptureServer_eq, ih]

/-! Claim theorems. -/

/-- C1: for every list of normalized spans already sorted by
(line, column) ascending, sequentially decoding the 5-integers-per-token
delta-encoded buffer produced from it reconstructs exactly the original
(line, column, length, tokenType) tuples, in order, with every modifier
bitmask equal to 0 (the fifth component of `tokenTuple`). -/
theorem encode_roundtrip (toks : List Token)
    (_hsorted : List.Pairwise tokLEP toks) :
    decodeSeq (encodeTokens toks) 0 0 = toks.map tokenTuple := by
  rw [encodeTokens_eq_aux]
  simpa using decodeSeq_encodeAux toks 0 0

/-- Witness for C1 at a concrete sorted token list. -/
theorem encode_roundtrip_witness :
    decodeSeq (encodeTokens [⟨0, 2, 3, .num 0⟩, ⟨0, 5, 1, .num 2⟩, ⟨2, 1, 4, .num 1⟩]) 0 0 =
      ([⟨0, 2, 3, .num 0⟩, ⟨0, 5, 1, .num 2⟩, ⟨2, 1, 4, .num 1⟩] : List Token).map
        tokenTuple :=
  encode_roundtrip _ (by decide)

/-- C2: the extracted tokens are sorted by (line ascending, column
ascending) before encoding, and consequently every buffer
`getSemanticTokens` returns satisfies the delta invariant: every
lineDelta is nonnegative and, whenever lineDelta is 0, the columnValue is
nonnegative. -/
theorem sorted_delta_invariant :
    (∀ toks : List Token, List.Pairwise tokLEP (sortTokens toks)) ∧
    (∀ (env : HighlightEnv) (text : List Char) (buf : List JsVal),
      getSemanticTokens env text = .ok buf → deltaOk buf = true) := by
  refine ⟨sortTokens_pairwise, ?_⟩
  intro env text buf h
  rcases getSemanticTokens_ok env text buf h with rfl | ⟨toks, rfl⟩
  · rfl
  · rw [encodeTokens_eq_aux]
    refine deltaOk_encodeAux _ 0 0 ?_ ?_
    · intro t _
      omega
    · exact (sortTokens_pairwise toks).chain'

/-- Witness for C2 at a concrete environment and document. -/
theorem sorted_delta_invariant_witness :
    deltaOk [.num 0, .num 0, .num 6, .num 0, .num 0,
      .num 0, .num 7, .num 1, .num 3, .num 0] = true :=
  sorted_delta_invariant.2
    ⟨true, some (), .ok [],
      .ok [⟨"keyword", ⟨0, 0⟩, ⟨0, 6⟩⟩, ⟨"number", ⟨0, 7⟩, ⟨0, 8⟩⟩]⟩
    ("SELECT 1".toList)
    [.num 0, .num 0, .num 6, .num 0, .num 0,
      .num 0, .num 7, .num 1, .num 3, .num 0] (by decide)

/-- C3: for every diagnostic text containing both a line/col locator and a
failed-at-position token marker, the normalizer emits the
Syntax-error-at-line-and-column message with the captured token in
quotes. -/
theorem cascade_rule_one (stderr l c tok : List Char)
    (h1 : scanFirst tryLineColAt stderr = some (l, c))
    (h2 : scanFirst tryTokenAt stderr = some tok) :
    parseClickHouseError stderr =
      "Syntax error at line ".toList ++ l ++ ", column ".toList ++ c
        ++ ": unexpected ".toList ++ [squote] ++ tok ++ [squote] := by
  simp only [parseClickHouseError, h1, h2]

/-- Witness for C3 at the spec's concrete error-cascade scenario. -/
theorem cascade_rule_one_witness :
    parseClickHouseError
        ("Code: 62. DB::Exception: Syntax error (query): failed at position 38 (created) (line 3, col 5): created DateTime".toList) =
      "Syntax error at line 3, column 5: unexpected ".toList
        ++ [squote] ++ "created".toList ++ [squote] :=
  cascade_rule_one _ ("3".toList) ("5".toList) ("created".toList)
    (by decide) (by decide)

/-- C4: a capture whose start row differs from its end row yields exactly
one token, on the start row, starting at the start column, whose length
is the number of characters from the start column to the end of that line
of the current document text. -/
theorem multiline_truncation (text : List Char) (c : Capture) (tv : JsVal) (ln : List Char)
    (hname : captureToTokenType c.name = some tv)
    (hrows : c.startPosition.row ≠ c.endPosition.row)
    (hline : (splitLines text)[c.startPosition.row]? = some ln)
    (hcol : c.startPosition.column ≤ ln.length) :
    processCapture (splitLines text) c =
      .ok (some { line := c.startPosition.row, char := c.startPosition.column,
                  length := ((ln.length - c.startPosition.column : Nat) : Int),
                  tokenType := tv }) := by
  simp only [processCapture, hname, if_neg hrows, hline]
  simp [Nat.cast_sub hcol]

/-- Witness for C4 at the spec's concrete scenario: a span from
(row 2, col 4) to (row 5, col 1) over a row-2 line of length 20
normalizes to line 2, col 4, length 16. -/
theorem multiline_truncation_witness :
    processCapture (splitLines "aa\nbb\ncccccccccccccccccccc\ndd\nee\nff".toList)
      { name := "keyword", startPosition := ⟨2, 4⟩, endPosition := ⟨5, 1⟩ } =
      .ok (some { line := 2, char := 4, length := 16, tokenType := .num 0 }) :=
  multiline_truncation _ _ (.num 0) ("cccccccccccccccccccc".toList)
    (by decide) (by decide) (by decide) (by decide)

/-- C5, as stated, is false of the program: the capture table record
inherits `Object.prototype`, so a capture named `constructor` — absent
from the table as written — resolves to a defined value, passes the
`=== undefined` guard and pushes a token; and the output count equals
the capture count here although a capture name is absent from the
table, refuting the equality-iff-all-present biconditional. -/
theorem capture_count_counterexample :
    captureTableOwnEntry "constructor" = none ∧
    extractTokens (splitLines "SELECT 1".toList)
        [⟨"constructor", ⟨0, 0⟩, ⟨0, 6⟩⟩] =
      .ok [{ line := 0, char := 0, length := 6, tokenType := .proto }] ∧
    ([({ line := 0, char := 0, length := 6, tokenType := .proto } : Token)]).length =
      ([(⟨"constructor", ⟨0, 0⟩, ⟨0, 6⟩⟩ : Capture)]).length := by
  refine ⟨by decide, by decide, by decide⟩

/-- C5 amended: a capture whose name resolves to `undefined` — neither an
own entry of the table nor an `Object.prototype` member — contributes no
token and raises no error; a capture named after a prototype member
leaks through the `=== undefined` guard and pushes a token whose type is
the inherited non-number value; the output token count is at most the
capture count, with equality iff every capture name resolves to a
defined value (own entry or inherited member). -/
theorem capture_count_amended :
    (∀ (tl : List (List Char)) (c : Capture), captureToTokenType c.name = none →
      processCapture tl c = .ok none) ∧
    (∀ (tl : List (List Char)) (c : Capture),
      captureTableOwnEntry c.name = none → c.name ∈ objectPrototypeMembers →
      c.startPosition.row = c.endPosition.row →
      processCapture tl c = .ok (some { line := c.startPosition.row,
                                        char := c.startPosition.column,
                                        length := (c.endPosition.column : Int) -
                                          (c.startPosition.column : Int),
                                        tokenType := .proto })) ∧
    (∀ (tl : List (List Char)) (captures : List Capture) (toks : List Token),
      extractTokens tl captures = .ok toks →
      toks.length ≤ captures.length ∧
        (toks.length = captures.length ↔
          ∀ c ∈ captures, (captureToTokenType c.name).isSome = true)) := by
  refine ⟨?_, ?_, extractTokens_count⟩
  · intro tl c h
    simp [processCapture, h]
  · intro tl c hown hmem hrow
    have hlook : captureToTokenType c.name = some .proto := by
      simp [captureToTokenType, hown, hmem]
    simp only [processCapture, hlook, if_pos hrow]

/-- Witness for the amended C5: a truly-unknown capture yields nothing, a
prototype-named capture yields a token with the inherited value as its
type, and a mixed list of three captures yields two tokens with the
equality biconditional failing on both sides. -/
theorem capture_count_amended_witness :
    processCapture (splitLines "SELECT".toList) ⟨"mystery", ⟨0, 0⟩, ⟨0, 2⟩⟩ = .ok none ∧
    processCapture (splitLines "SELECT".toList) ⟨"toString", ⟨0, 0⟩, ⟨0, 3⟩⟩ =
      .ok (some { line := 0, char := 0, length := 3, tokenType := .proto }) ∧
    (([(⟨0, 0, 6, .num 0⟩ : Token), ⟨0, 3, 1, .proto⟩] : List Token).length ≤
        ([⟨"keyword", ⟨0, 0⟩, ⟨0, 6⟩⟩, ⟨"constructor", ⟨0, 3⟩, ⟨0, 4⟩⟩,
          ⟨"mystery", ⟨0, 5⟩, ⟨0, 6⟩⟩] : List Capture).length ∧
      (([(⟨0, 0, 6, .num 0⟩ : Token), ⟨0, 3, 1, .proto⟩] : List Token).length =
          ([⟨"keyword", ⟨0, 0⟩, ⟨0, 6⟩⟩, ⟨"constructor", ⟨0, 3⟩, ⟨0, 4⟩⟩,
            ⟨"mystery", ⟨0, 5⟩, ⟨0, 6⟩⟩] : List Capture).length ↔
        ∀ c ∈ ([⟨"keyword", ⟨0, 0⟩, ⟨0, 6⟩⟩, ⟨"constructor", ⟨0, 3⟩, ⟨0, 4⟩⟩,
            ⟨"mystery", ⟨0, 5⟩, ⟨0, 6⟩⟩] : List Capture),
          (captureToTokenType c.name).isSome = true)) :=
  ⟨capture_count_amended.1 _ _ (by decide),
   capture_count_amended.2.1 _ _ (by decide) (by decide) (by decide),
   capture_count_amended.2.2 (splitLines "SELECT 1".toList) _ _ (by decide)⟩

/-- C6, as stated, is false: the span normalizer does not treat a
negative computed length as 0 (it emits the negative difference), and an
out-of-range start row in the multi-line branch throws rather than
yielding length 0. -/
theorem no_clamp_counterexample :
    processCapture (splitLines "SELECT 1".toList)
        { name := "keyword", startPosition := ⟨0, 5⟩, endPosition := ⟨0, 2⟩ } =
      .ok (some { line := 0, char := 5, length := -3, tokenType := .num 0 }) ∧
    (-3 : Int) ≠ 0 ∧
    processCapture (splitLines "x".toList)
        { name := "keyword", startPosition := ⟨2, 0⟩, endPosition := ⟨3, 0⟩ } =
      .error () := by
  refine ⟨by decide, by decide, by decide⟩

/-- C6 amended: for a recognized capture, a single-row span's length is
emitted as endColumn minus startColumn even when negative (no clamping),
and a multi-row span whose start row is not below the document's line
count makes the normalizer throw instead of emitting a length-0 token. -/
theorem no_clamp_amended :
    (∀ (tl : List (List Char)) (c : Capture) (tv : JsVal),
      captureToTokenType c.name = some tv →
      c.startPosition.row = c.endPosition.row →
      processCapture tl c = .ok (some { line := c.startPosition.row,
                                        char := c.startPosition.column,
                                        length := (c.endPosition.column : Int) -
                                          (c.startPosition.column : Int),
                                        tokenType := tv })) ∧
    (∀ (tl : List (List Char)) (c : Capture) (tv : JsVal),
      captureToTokenType c.name = some tv →
      c.startPosition.row ≠ c.endPosition.row →
      tl.length ≤ c.startPosition.row →
      processCapture tl c = .error ()) := by
  constructor
  · intro tl c tv hname hrow
    simp only [processCapture, hname, if_pos hrow]
  · intro tl c tv hname hrow hlen
    simp only [processCapture, hname, if_neg hrow, List.getElem?_eq_none hlen]

/-- Witness for the amended C6 at concrete inputs. -/
theorem no_clamp_amended_witness :
    processCapture (splitLines "SELECT 1 FROM t".toList)
        { name := "number", startPosition := ⟨0, 9⟩, endPosition := ⟨0, 3⟩ } =
      .ok (some { line := 0, char := 9, length := -6, tokenType := .num 3 }) ∧
    processCapture (splitLines "ab".toList)
        { name := "comment", startPosition := ⟨4, 1⟩, endPosition := ⟨6, 0⟩ } =
      .error () :=
  ⟨no_clamp_amended.1 _ _ (.num 3) (by decide) (by decide),
   no_clamp_amended.2 _ _ (.num 4) (by decide) (by decide) (by decide)⟩

/-- C7: when the parser is not initialized, or the query source file
cannot be read, or the query fails to compile, `getSemanticTokens`
returns an empty token list (a normal return, not a thrown error). -/
theorem highlight_failure_empty (env : HighlightEnv) (text : List Char)
    (h : env.parserReady = false ∨ env.queryFile = .error () ∨
      env.compiledQuery = .error ()) :
    getSemanticTokens env text = .ok [] := by
  obtain ⟨ready, tree, qf, cq⟩ := env
  cases ready <;> cases tree <;> cases qf <;> cases cq <;>
    simp_all [getSemanticTokens]

/-- Witness for C7 with an uninitialized parser. -/
theorem highlight_failure_empty_witness :
    getSemanticTokens ⟨false, none, .error (), .error ()⟩ ("SELECT 1".toList) = .ok [] :=
  highlight_failure_empty _ _ (Or.inl rfl)

/-- C8: when no locator, token marker, position or exception marker
matches, the normalizer takes the first line, strips a leading numeric
error-code, and emits the Formatting-failed message, with the fixed
fallback text when the remainder is empty. -/
theorem cascade_rule_five (stderr : List Char)
    (h1 : scanFirst tryLineColAt stderr = none)
    (h2 : scanFirst tryTokenAt stderr = none)
    (h3 : scanFirst tryPositionAt stderr = none)
    (h4 : scanFirst tryExcAt stderr = none) :
    parseClickHouseError stderr =
      "Formatting failed: ".toList ++
        (if stripLeadingCode (firstLineOf stderr) = [] then "Unknown error".toList
         else stripLeadingCode (firstLineOf stderr)) := by
  simp only [parseClickHouseError, h1, h2, h3, h4]

/-- Witness for C8 at the spec's concrete fallback scenario. -/
theorem cascade_rule_five_witness :
    parseClickHouseError ("Code: 117. Something broke".toList) =
      "Formatting failed: Something broke".toList :=
  cascade_rule_five _ (by decide) (by decide) (by decide) (by decide)

/-- C9: whenever the external formatter process does not exit cleanly
(spawn error such as a missing binary, nonzero exit code, or the null
exit code of a process killed by the spawn timeout), `formatDocument`
resolves to an empty edit list; the promise only resolves, so no
exception reaches the caller (the model is a total function). -/
theorem format_failure_no_edits (doc : List Char) (outcome : ProcOutcome)
    (h : exitedCleanly outcome = false) :
    formatDocument doc outcome = [] := by
  cases outcome with
  | errored code => rfl
  | closed code stdout stderr =>
    cases code with
    | none => simp [formatDocument]
    | some n =>
      have hn : n ≠ 0 := by
        intro h0
        subst h0
        simp [exitedCleanly] at h
      simp [formatDocument, hn]

/-- Witness for C9 at the timeout outcome (close event with null exit
code). -/
theorem format_failure_no_edits_witness :
    formatDocument ("SELECT 1".toList) (.closed none [] []) = [] :=
  format_failure_no_edits _ _ (by decide)

/-- C10: the two copies of the semantic-token pipeline (in
`src/src/server.ts` and in the formatting-capable server) compute
identical output buffers for every document text and parser state. -/
theorem servers_equivalent :
    ∀ (env : HighlightEnv) (text : List Char),
      getSemanticTokensServer env text = getSemanticTokens env text := by
  intro env text
  obtain ⟨ready, tree, qf, cq⟩ := env
  simp only [getSemanticTokensServer, getSemanticTokens, extractTokensServer_eq]

end ClickhouseLsp
